import Mathlib

/-!
Verification development for the TEM_autosize_analyzer repository.

The core under study is `Analyzer.analyze_image` in
`TEM_autosize_analyzer/core/analyzer.py`, together with `SessionState` in
`core/session.py`.  The embedding below translates the repository-authored
logic faithfully:

* Intensities, diameters and thresholds are modelled as rationals (the
  Python code uses IEEE floats; the algebraic claims are about the exact
  arithmetic the code expresses).
* The imaging-library primitives the code calls (`skimage.io.imread`,
  `equalize_adapthist`, `threshold_otsu`, `remove_small_objects`,
  `binary_fill_holes`, `label`, `regionprops`) are external library code,
  not part of this repository; the spec (section 9) states they are used by
  contract only.  The pipeline consumes their outputs, so the embedding
  takes those outputs as data: `ImageData` packages, for a fixed raster
  image and fixed `AnalyzerSettings`, the scale-bar components surviving
  the small-object removal (for each of the two colour rules) and the
  particle region descriptors produced by segmentation.  These outputs do
  not depend on `known_nm` or on `Thresholds`, exactly as in the source,
  which is what the relational claims rely on.
* `np.std` returns the square root of the population variance.  Square
  roots are irrational, so the embedding stores the squared standard
  deviation (`std_sq_nm`).  The real `std_nm` of the code is the square
  root of this field; since the square root is strictly monotone and
  injective on nonnegative reals, nullability and scaling claims about
  `std_nm` are settled through its square (doubling `std_nm` is
  quadrupling `std_sq_nm`).
* Python list sorting (`sb_props.sort(key=..., reverse=True)`) is a stable
  sort; any stable sort produces the same list, so it is modelled by
  `List.insertionSort` with the matching descending comparison.
-/

namespace TEMModel

/-- The `Thresholds` dataclass from `core/analyzer.py` (acceptance policy). -/
structure Thresholds where
  min_nm : ℚ := 7 / 2
  max_nm : ℚ := 9
  ecc_max : ℚ := 7 / 10
  sol_min : ℚ := 1 / 2
deriving DecidableEq, Repr

/-- The `AnalyzerSettings` dataclass from `core/analyzer.py`.  Only the fields
the post-imaging logic reads are kept; the fields consumed exclusively by
the abstracted imaging-library calls (region ratio, gamma, blur sigma,
adaptive-histogram parameters) live behind `ImageData`. -/
structure AnalyzerSettings where
  sb_color : String := "white"
  white_thr : ℕ := 245
  black_thr : ℕ := 10
  sb_min_area : ℕ := 200
  crop_bottom_px : ℕ := 150
deriving DecidableEq, Repr

/-- The `ImageResult` dataclass from `core/analyzer.py`.  `std_sq_nm` is the
square of the `std_nm` the code stores (see the file comment). -/
structure ImageResult where
  count : ℕ
  mean_nm : Option ℚ
  std_sq_nm : Option ℚ
  values_nm : List ℚ
  circles : List (ℚ × ℚ × ℚ)
deriving DecidableEq, Repr

/-- A scale-bar connected component as `measure.regionprops` reports it:
pixel area and bounding box `(min_row, min_col, max_row, max_col)`. -/
structure SBRegion where
  area : ℕ
  min_row : ℕ
  min_col : ℕ
  max_row : ℕ
  max_col : ℕ
deriving DecidableEq, Repr

/-- A segmented particle region as `measure.regionprops` reports it:
equivalent diameter in pixels, eccentricity, solidity, centroid
`(row, col)`. -/
structure RegionProps where
  equivalent_diameter : ℚ
  eccentricity : ℚ
  solidity : ℚ
  centroid : ℚ × ℚ
deriving DecidableEq, Repr

/-- The outputs of the imaging-library stages for one raster image under
fixed `AnalyzerSettings`: image height, the scale-bar components surviving
`remove_small_objects(.., sb_min_area)` in label scan order, for each of
the two colour rules, and the particle regions from segmentation in label
scan order.  None of these depend on `known_nm` or `Thresholds`. -/
structure ImageData where
  h_img : ℕ
  sbPropsWhite : List SBRegion
  sbPropsBlack : List SBRegion
  particleProps : List RegionProps
deriving DecidableEq, Repr

/-- The error taxonomy of the spec (section 7).  The Python code raises
`ValueError` with a distinct message at each site; each constructor
carries the source message. -/
inductive AnalyzeError where
  | invalidConfig (msg : String)
  | calibrationError (msg : String)
  | configError (msg : String)
deriving DecidableEq, Repr

/-- Line 55: `sb_color = (sb_color or settings.sb_color).lower()`.
Python `or` falls back on the empty string as well as on `None`. -/
def resolveColor (c : Option String) (settings : AnalyzerSettings) : String :=
  (match c with
   | none => settings.sb_color
   | some s => if s = "" then settings.sb_color else s).toLower

/-- Lines 64-70: which scale-bar component list the colour branch selects;
`none` models falling through to the `raise ValueError` branch. -/
def sbPropsFor (c : String) (img : ImageData) : Option (List SBRegion) :=
  if c = "white" then some img.sbPropsWhite
  else if c = "black" then some img.sbPropsBlack
  else none

/-- The descending-by-area comparison used for
`sb_props.sort(key=lambda p: p.area, reverse=True)`. -/
def areaGE (a b : SBRegion) : Prop := b.area ≤ a.area

instance : DecidableRel areaGE := fun a b => Nat.decLe b.area a.area

/-- Lines 62-86 of `analyze_image`: scale-bar calibration.  Sorts the
surviving components by area, descending and stable (Python sort), takes
the first, derives the bar width from its bounding box and divides. -/
def calibrate (c : String) (img : ImageData) (known_nm : ℚ) :
    Except AnalyzeError ℚ :=
  match sbPropsFor c img with
  | none => .error (.invalidConfig "Scale bar color must be white or black.")
  | some sb_props =>
    match (List.insertionSort areaGE sb_props).head? with
    | none => .error (.calibrationError "Scale bar not found. Adjust threshold or region.")
    | some top =>
      let bar_width_px : ℤ := (top.max_col : ℤ) - (top.min_col : ℤ)
      if bar_width_px ≤ 0 then
        .error (.calibrationError "Invalid scale bar width.")
      else
        .ok (known_nm / (bar_width_px : ℚ))

/-- Lines 120-122: the acceptance mask for one region,
`mask_size & mask_shape` with inclusive bounds. -/
def acceptRegion (t : Thresholds) (nm_per_pix : ℚ) (p : RegionProps) : Bool :=
  let d_nm := p.equivalent_diameter * nm_per_pix
  (decide (t.min_nm ≤ d_nm) && decide (d_nm ≤ t.max_nm))
    && (decide (p.eccentricity ≤ t.ecc_max) && decide (t.sol_min ≤ p.solidity))

/-- Numpy boolean-mask selection `xs[mask]`. -/
def maskSelect {α : Type} (xs : List α) (mask : List Bool) : List α :=
  (xs.zip mask).filterMap (fun xm => if xm.2 then some xm.1 else none)

/-- Lines 133-139: the overlay circle built from one kept region,
`(cx, cy, equivalent_diameter / 2)` in pixel coordinates. -/
def circleOf (p : RegionProps) : ℚ × ℚ × ℚ :=
  (p.centroid.2, p.centroid.1, p.equivalent_diameter / 2)

/-- The empty result returned on lines 112 and 126. -/
def emptyResult : ImageResult :=
  { count := 0, mean_nm := none, std_sq_nm := none, values_nm := [], circles := [] }

/-- Model of `Analyzer.analyze_image` from `core/analyzer.py`, after the
imaging-library stages have been packaged into `img : ImageData`.  The
remaining logic is translated line by line; `std_sq_nm` stores the square
of the `np.std` value (the population variance). -/
def analyze_image (settings : AnalyzerSettings) (img : ImageData)
    (known_nm : ℚ) (thresholds : Thresholds) (sb_color : Option String) :
    Except AnalyzeError ImageResult :=
  let c := resolveColor sb_color settings
  match calibrate c img known_nm with
  | .error e => .error e
  | .ok nm_per_pix =>
    if (img.h_img : ℤ) - (settings.crop_bottom_px : ℤ) ≤ 1 then
      .error (.configError "Crop bottom too large for this image.")
    else
      let props := img.particleProps
      if props.isEmpty then .ok emptyResult
      else
        let d_nm := props.map (fun p => p.equivalent_diameter * nm_per_pix)
        let valid := props.map (acceptRegion thresholds nm_per_pix)
        let values := maskSelect d_nm valid
        if values.isEmpty then .ok emptyResult
        else
          let n : ℚ := (values.length : ℚ)
          let mean_nm := values.sum / n
          let std_sq_nm := (values.map (fun x => (x - mean_nm) ^ 2)).sum / n
          let circles := (props.zip valid).filterMap
            (fun pk => if pk.2 then some (circleOf pk.1) else none)
          .ok { count := values.length, mean_nm := some mean_nm,
                std_sq_nm := some std_sq_nm, values_nm := values,
                circles := circles }

/-- The first element of `l`, in list order, whose area is maximal in `l`:
the component a stable descending-by-area sort puts first. -/
def isMaxIn (l : List SBRegion) (p : SBRegion) : Bool :=
  l.all (fun q => q.area ≤ p.area)

/-- First component of maximal area, in scan order. -/
def firstMax (l : List SBRegion) : Option SBRegion := l.find? (isMaxIn l)

instance : IsTotal SBRegion areaGE := ⟨fun a b => Nat.le_total b.area a.area⟩

instance : IsTrans SBRegion areaGE := ⟨fun _ _ _ hab hbc => Nat.le_trans hbc hab⟩

lemma find?_eq_of_agree {α : Type} (p q : α → Bool) :
    ∀ l : List α, (∀ a ∈ l, p a = q a) → l.find? p = l.find? q := by
  intro l
  induction l with
  | nil => intro _; rfl
  | cons x xs ih =>
    intro h
    have hx := h x (List.mem_cons_self x xs)
    simp only [List.find?_cons]
    rw [hx]
    cases q x with
    | true => rfl
    | false => exact ih (fun a ha => h a (List.mem_cons_of_mem x ha))

/-- The head of the stable descending-by-area sort is the first component,
in scan order, whose area is maximal. -/
lemma insertionSort_head_eq_firstMax :
    ∀ l : List SBRegion, (List.insertionSort areaGE l).head? = firstMax l := by
  intro l
  induction l with
  | nil => rfl
  | cons x xs ih =>
    show (List.orderedInsert areaGE x (List.insertionSort areaGE xs)).head? = _
    cases hs : List.insertionSort areaGE xs with
    | nil =>
      have hxs : xs = [] := by
        have := List.length_insertionSort areaGE xs
        rw [hs] at this
        exact List.eq_nil_of_length_eq_zero this.symm
      subst hxs
      simp [List.orderedInsert, firstMax, isMaxIn, List.find?]
    | cons m rest =>
      have hmem : m ∈ xs := by
        have : m ∈ List.insertionSort areaGE xs := by
          rw [hs]; exact List.mem_cons_self m rest
        exact (List.mem_insertionSort areaGE).mp this
      have hdom : ∀ q ∈ xs, q.area ≤ m.area := by
        intro q hq
        have hq2 : q ∈ List.insertionSort areaGE xs :=
          (List.mem_insertionSort areaGE).mpr hq
        rw [hs] at hq2
        rcases List.mem_cons.mp hq2 with h | h
        · subst h; exact Nat.le_refl _
        · have hsorted := List.sorted_insertionSort areaGE xs
          rw [hs] at hsorted
          exact List.rel_of_sorted_cons hsorted q h
      by_cases hxm : areaGE x m
      · have hins : List.orderedInsert areaGE x (m :: rest) = x :: m :: rest := by
          simp [List.orderedInsert, hxm]
        rw [hins]
        have hmax : isMaxIn (x :: xs) x = true := by
          simp only [isMaxIn, List.all_eq_true, decide_eq_true_eq]
          intro q hq
          rcases List.mem_cons.mp hq with h | h
          · subst h; exact Nat.le_refl _
          · exact Nat.le_trans (hdom q h) hxm
        simp [firstMax, List.find?_cons, hmax]
      · have hins : List.orderedInsert areaGE x (m :: rest)
            = m :: List.orderedInsert areaGE x rest := by
          simp [List.orderedInsert, hxm]
        rw [hins]
        have hxlt : ¬ m.area ≤ x.area := hxm
        have hnotmax : isMaxIn (x :: xs) x = false := by
          simp only [isMaxIn, List.all_eq_false]
          exact ⟨m, List.mem_cons_of_mem x hmem, by simpa using hxlt⟩
        have hagree : ∀ a ∈ xs, isMaxIn (x :: xs) a = isMaxIn xs a := by
          intro a _
          cases hcase : isMaxIn xs a with
          | true =>
            simp only [isMaxIn] at hcase ⊢
            simp only [List.all_cons, hcase, Bool.and_true, decide_eq_true_eq]
            have hma : m.area ≤ a.area := by
              have := (List.all_eq_true.mp hcase) m hmem
              simpa using this
            exact Nat.le_trans (Nat.le_of_lt (Nat.lt_of_not_le hxlt)) hma
          | false =>
            simp only [isMaxIn] at hcase ⊢
            simp only [List.all_cons, hcase, Bool.and_false]
        have hstep : (x :: xs).find? (isMaxIn (x :: xs)) = xs.find? (isMaxIn xs) := by
          rw [List.find?_cons, hnotmax]
          exact find?_eq_of_agree _ _ xs hagree
        rw [firstMax, hstep]
        have ihs := ih
        rw [hs] at ihs
        simpa [firstMax] using ihs

/-- Numpy mask selection of a mapped list along a mapped mask is a filter. -/
lemma maskSelect_map_map {α β : Type} (g : α → β) (q : α → Bool) :
    ∀ l : List α, maskSelect (l.map g) (l.map q) = (l.filter q).map g := by
  intro l
  induction l with
  | nil => rfl
  | cons x xs ih =>
    simp only [List.map_cons, maskSelect, List.zip_cons_cons, List.filterMap_cons,
      List.filter_cons]
    cases hq : q x with
    | true => simpa [maskSelect] using ih
    | false => simpa [maskSelect] using ih

/-- The accepted-region loop over `zip(props, valid)` is a filter. -/
lemma zip_filterMap_eq_filter_map {α β : Type} (f : α → β) (q : α → Bool) :
    ∀ l : List α,
      (l.zip (l.map q)).filterMap (fun pk => if pk.2 then some (f pk.1) else none)
        = (l.filter q).map f := by
  intro l
  induction l with
  | nil => rfl
  | cons x xs ih =>
    simp only [List.map_cons, List.zip_cons_cons, List.filterMap_cons, List.filter_cons]
    cases hq : q x with
    | true => simpa using ih
    | false => simpa using ih

/-- Arithmetic mean, `np.mean`. -/
def meanOf (l : List ℚ) : ℚ := l.sum / (l.length : ℚ)

/-- Population variance: the square of `np.std` (divides by the length,
not by length minus one). -/
def std_sqOf (l : List ℚ) : ℚ :=
  (l.map (fun x => (x - meanOf l) ^ 2)).sum / (l.length : ℚ)

/-- The nonempty-result record built on lines 128-145, as a function of the
kept regions and the calibration. -/
def mkResult (nm_per_pix : ℚ) (kept : List RegionProps) : ImageResult :=
  let values := kept.map (fun p => p.equivalent_diameter * nm_per_pix)
  { count := values.length, mean_nm := some (meanOf values),
    std_sq_nm := some (std_sqOf values),
    values_nm := values,
    circles := kept.map circleOf }

/-- Characterization of `analyze_image`: after calibration and the crop
check, the result is determined by the filtered region list. -/
lemma analyze_image_eq (settings : AnalyzerSettings) (img : ImageData)
    (known_nm : ℚ) (t : Thresholds) (c : Option String) :
    analyze_image settings img known_nm t c =
      match calibrate (resolveColor c settings) img known_nm with
      | .error e => .error e
      | .ok npp =>
        if (img.h_img : ℤ) - (settings.crop_bottom_px : ℤ) ≤ 1 then
          .error (.configError "Crop bottom too large for this image.")
        else
          let kept := img.particleProps.filter (acceptRegion t npp)
          if kept.isEmpty then .ok emptyResult
          else .ok (mkResult npp kept) := by
  unfold analyze_image
  dsimp only
  cases hcal : calibrate (resolveColor c settings) img known_nm with
  | error e => rfl
  | ok npp =>
    simp only
    by_cases hcrop : (img.h_img : ℤ) - (settings.crop_bottom_px : ℤ) ≤ 1
    · simp [hcrop]
    · simp only [hcrop, if_false]
      have hvals : maskSelect
          (img.particleProps.map (fun p => p.equivalent_diameter * npp))
          (img.particleProps.map (acceptRegion t npp))
          = (img.particleProps.filter (acceptRegion t npp)).map
              (fun p => p.equivalent_diameter * npp) :=
        maskSelect_map_map _ _ _
      have hcirc : (img.particleProps.zip
            (img.particleProps.map (acceptRegion t npp))).filterMap
            (fun pk => if pk.2 then some (circleOf pk.1) else none)
          = (img.particleProps.filter (acceptRegion t npp)).map circleOf :=
        zip_filterMap_eq_filter_map _ _ _
      by_cases hprops : img.particleProps.isEmpty
      · have : img.particleProps = [] := List.isEmpty_iff.mp hprops
        simp [this, hprops]
      · simp only [hprops, if_false, hvals, hcirc]
        by_cases hkept : (img.particleProps.filter (acceptRegion t npp)).isEmpty
        · have h0 : img.particleProps.filter (acceptRegion t npp) = [] :=
            List.isEmpty_iff.mp hkept
          simp [h0, hkept]
        · have h1 : ¬ ((img.particleProps.filter (acceptRegion t npp)).map
              (fun p => p.equivalent_diameter * npp)).isEmpty := by
            simpa [List.isEmpty_iff] using hkept
          simp [h1, hkept, mkResult, meanOf, std_sqOf]

/-- Every successful `analyze_image` call went through a successful
calibration and crop check, and its result is either the empty result (no
region passed the filter) or `mkResult` over the filtered regions. -/
lemma analyze_ok_cases (settings : AnalyzerSettings) (img : ImageData)
    (known_nm : ℚ) (t : Thresholds) (c : Option String) (r : ImageResult)
    (h : analyze_image settings img known_nm t c = .ok r) :
    ∃ npp, calibrate (resolveColor c settings) img known_nm = .ok npp ∧
      ¬ ((img.h_img : ℤ) - (settings.crop_bottom_px : ℤ) ≤ 1) ∧
      ((img.particleProps.filter (acceptRegion t npp) = [] ∧ r = emptyResult) ∨
       (img.particleProps.filter (acceptRegion t npp) ≠ [] ∧
        r = mkResult npp (img.particleProps.filter (acceptRegion t npp)))) := by
  rw [analyze_image_eq] at h
  cases hcal : calibrate (resolveColor c settings) img known_nm with
  | error e =>
    rw [hcal] at h
    exact absurd h (by simp)
  | ok npp =>
    rw [hcal] at h
    dsimp only at h
    by_cases hcrop : (img.h_img : ℤ) - (settings.crop_bottom_px : ℤ) ≤ 1
    · rw [if_pos hcrop] at h
      exact absurd h (by simp)
    · rw [if_neg hcrop] at h
      refine ⟨npp, rfl, hcrop, ?_⟩
      by_cases hkept : (img.particleProps.filter (acceptRegion t npp)).isEmpty = true
      · left
        rw [if_pos hkept] at h
        exact ⟨List.isEmpty_iff.mp hkept, (Except.ok.inj h).symm⟩
      · right
        rw [if_neg hkept] at h
        refine ⟨?_, (Except.ok.inj h).symm⟩
        intro h0
        exact hkept (by simp [h0])

/-- The count of a successful result is the number of filtered regions. -/
lemma analyze_count (settings : AnalyzerSettings) (img : ImageData)
    (known_nm : ℚ) (t : Thresholds) (c : Option String) (r : ImageResult)
    (h : analyze_image settings img known_nm t c = .ok r) :
    ∃ npp, calibrate (resolveColor c settings) img known_nm = .ok npp ∧
      r.count = (img.particleProps.filter (acceptRegion t npp)).length := by
  obtain ⟨npp, hcal, _, hc⟩ := analyze_ok_cases settings img known_nm t c r h
  refine ⟨npp, hcal, ?_⟩
  rcases hc with ⟨hf, rfl⟩ | ⟨_, rfl⟩
  · simp [emptyResult, hf]
  · simp [mkResult]

/-- C2: a region is accepted iff all three predicates hold, with inclusive
bounds on the calibrated diameter, and filtering preserves the
segmentation order (the accepted list is a sublist of the region list). -/
theorem claim2_filter_accept_iff (t : Thresholds) (nm_per_pix : ℚ)
    (p : RegionProps) (l : List RegionProps) :
    (acceptRegion t nm_per_pix p = true ↔
      (t.min_nm ≤ p.equivalent_diameter * nm_per_pix ∧
       p.equivalent_diameter * nm_per_pix ≤ t.max_nm ∧
       p.eccentricity ≤ t.ecc_max ∧
       t.sol_min ≤ p.solidity)) ∧
    List.Sublist (l.filter (acceptRegion t nm_per_pix)) l := by
  constructor
  · simp [acceptRegion, and_assoc]
  · exact List.filter_sublist l

/-- C4: in every successful result, `values_nm`, `circles` and `count`
have the same cardinality, and the i-th value and i-th circle are
computed from the same accepted region, in segmentation order. -/
theorem claim4_cardinality (settings : AnalyzerSettings) (img : ImageData)
    (known_nm : ℚ) (t : Thresholds) (c : Option String) (r : ImageResult)
    (h : analyze_image settings img known_nm t c = .ok r) :
    r.values_nm.length = r.count ∧ r.circles.length = r.count ∧
    ∃ npp kept, List.Sublist kept img.particleProps ∧
      (∀ p ∈ kept, acceptRegion t npp p = true) ∧
      r.values_nm = kept.map (fun p => p.equivalent_diameter * npp) ∧
      r.circles = kept.map circleOf := by
  obtain ⟨npp, _, _, hc⟩ := analyze_ok_cases settings img known_nm t c r h
  rcases hc with ⟨_, rfl⟩ | ⟨_, rfl⟩
  · exact ⟨rfl, rfl, npp, [], List.nil_sublist _, by simp, rfl, rfl⟩
  · refine ⟨by simp [mkResult], by simp [mkResult], npp,
      img.particleProps.filter (acceptRegion t npp), List.filter_sublist _,
      ?_, by simp [mkResult], by simp [mkResult]⟩
    intro p hp
    exact (List.mem_filter.mp hp).2

/-- C5: `mean_nm` and `std_nm` (through its square) are null iff
`count = 0`, and zero accepted regions yields the empty result normally
rather than an error. -/
theorem claim5_empty_contract (settings : AnalyzerSettings) (img : ImageData)
    (known_nm : ℚ) (t : Thresholds) (c : Option String) :
    (∀ r, analyze_image settings img known_nm t c = .ok r →
      ((r.mean_nm = none ↔ r.count = 0) ∧ (r.std_sq_nm = none ↔ r.count = 0)))
    ∧ (∀ npp, calibrate (resolveColor c settings) img known_nm = .ok npp →
        ¬ ((img.h_img : ℤ) - (settings.crop_bottom_px : ℤ) ≤ 1) →
        img.particleProps.filter (acceptRegion t npp) = [] →
        analyze_image settings img known_nm t c = .ok emptyResult) := by
  constructor
  · intro r h
    obtain ⟨npp, _, _, hc⟩ := analyze_ok_cases settings img known_nm t c r h
    rcases hc with ⟨_, rfl⟩ | ⟨hne, rfl⟩
    · simp [emptyResult]
    · have hlen : (img.particleProps.filter (acceptRegion t npp)).length ≠ 0 := by
        simpa [List.length_eq_zero] using hne
      simp [mkResult, hlen]
  · intro npp hcal hcrop hfilter
    rw [analyze_image_eq, hcal]
    dsimp only
    rw [if_neg hcrop]
    simp [hfilter]

/-- C9: for a successful result with positive count, `mean_nm` is the
arithmetic mean of `values_nm` and the squared `std_nm` is the population
variance: the sum of squared deviations divided by `count`, not by
`count - 1`. -/
theorem claim9_population_stats (settings : AnalyzerSettings) (img : ImageData)
    (known_nm : ℚ) (t : Thresholds) (c : Option String) (r : ImageResult)
    (h : analyze_image settings img known_nm t c = .ok r) (hpos : 0 < r.count) :
    r.mean_nm = some (r.values_nm.sum / (r.count : ℚ)) ∧
    r.std_sq_nm = some ((r.values_nm.map
      (fun x => (x - r.values_nm.sum / (r.count : ℚ)) ^ 2)).sum / (r.count : ℚ)) := by
  obtain ⟨npp, _, _, hc⟩ := analyze_ok_cases settings img known_nm t c r h
  rcases hc with ⟨_, rfl⟩ | ⟨_, rfl⟩
  · exact absurd hpos (by simp [emptyResult])
  · constructor
    · simp [mkResult, meanOf]
    · simp [mkResult, std_sqOf, meanOf]

/-- The `SessionState` dataclass from `core/session.py`. -/
structure SessionState where
  thresholds : Thresholds := {}
  total_nm : List ℚ := []
deriving DecidableEq, Repr

/-- Model of `SessionState.add_measurements`: `self.total_nm.extend(values)`,
modelled functionally. -/
def add_measurements (s : SessionState) (values : List ℚ) : SessionState :=
  { s with total_nm := s.total_nm ++ values }

/-- Model of `SessionState.total_count`: `len(self.total_nm)`. -/
def total_count (s : SessionState) : ℕ := s.total_nm.length

/-- C10: `add_measurements` appends the given values in order to
`total_nm`, leaves `thresholds` unchanged, and afterwards `total_count`
is the old count plus the number of added values. -/
theorem claim10_add_measurements (s : SessionState) (values : List ℚ) :
    (add_measurements s values).total_nm = s.total_nm ++ values ∧
    (add_measurements s values).thresholds = s.thresholds ∧
    total_count (add_measurements s values) = total_count s + values.length := by
  refine ⟨rfl, rfl, ?_⟩
  simp [add_measurements, total_count]

/-- C3: calibration with a valid colour: empty surviving component list
fails with the scale-bar-not-found `CalibrationError`; otherwise the
first component of maximal area in scan order is selected (total, so ties
cannot crash), the bar width is the bounding-box column span, a
non-positive width fails with the invalid-width `CalibrationError`, and a
positive width yields `known_nm / bar_width_px`. -/
theorem claim3_calibration (c : String) (img : ImageData) (known_nm : ℚ)
    (l : List SBRegion) (h : sbPropsFor c img = some l) :
    (l = [] → calibrate c img known_nm =
      .error (.calibrationError "Scale bar not found. Adjust threshold or region."))
    ∧ (∀ top, firstMax l = some top →
        (((top.max_col : ℤ) - (top.min_col : ℤ) ≤ 0 →
          calibrate c img known_nm =
            .error (.calibrationError "Invalid scale bar width."))
        ∧ (0 < (top.max_col : ℤ) - (top.min_col : ℤ) →
          calibrate c img known_nm =
            .ok (known_nm / (((top.max_col : ℤ) - (top.min_col : ℤ) : ℤ) : ℚ))))) := by
  constructor
  · intro hl
    subst hl
    simp [calibrate, h]
  · intro top htop
    have hhead : (List.insertionSort areaGE l).head? = some top := by
      rw [insertionSort_head_eq_firstMax]; exact htop
    constructor
    · intro hw
      rw [calibrate, h]
      dsimp only
      rw [hhead]
      dsimp only
      rw [if_pos hw]
    · intro hw
      rw [calibrate, h]
      dsimp only
      rw [hhead]
      dsimp only
      rw [if_neg (not_le.mpr hw)]

/-- C6: tightening any of the four thresholds never increases the count
of a successful analysis of the same image and calibration. -/
theorem claim6_threshold_monotone (settings : AnalyzerSettings)
    (img : ImageData) (known_nm : ℚ) (t t' : Thresholds) (c : Option String)
    (r r' : ImageResult)
    (hmin : t.min_nm ≤ t'.min_nm) (hmax : t'.max_nm ≤ t.max_nm)
    (hecc : t'.ecc_max ≤ t.ecc_max) (hsol : t.sol_min ≤ t'.sol_min)
    (h : analyze_image settings img known_nm t c = .ok r)
    (h' : analyze_image settings img known_nm t' c = .ok r') :
    r'.count ≤ r.count := by
  obtain ⟨npp, hcal, hcount⟩ := analyze_count settings img known_nm t c r h
  obtain ⟨npp', hcal', hcount'⟩ := analyze_count settings img known_nm t' c r' h'
  have hnpp : npp' = npp := by
    rw [hcal] at hcal'
    exact (Except.ok.inj hcal').symm
  rw [hnpp] at hcount'
  rw [hcount, hcount']
  have himp : ∀ p, acceptRegion t' npp p → acceptRegion t npp p := by
    intro p hp
    simp only [acceptRegion, Bool.and_eq_true, decide_eq_true_eq] at hp ⊢
    obtain ⟨⟨h1, h2⟩, h3, h4⟩ := hp
    exact ⟨⟨le_trans hmin h1, le_trans h2 hmax⟩, le_trans h3 hecc, le_trans hsol h4⟩
  exact (List.monotone_filter_right img.particleProps himp).length_le

/-- A grayscale pixel grid (the enhanced ROI `roi_f`). -/
def Grid : Type := List (List ℚ)

/-- A binary pixel grid. -/
def BoolGrid : Type := List (List Bool)

/-- The imaging-library primitives segmentation calls (`skimage` /
`scipy.ndimage`); external code used by contract (spec section 9). -/
structure SegmentationLib where
  threshold_otsu : Grid → ℚ
  remove_small_objects : BoolGrid → ℕ → BoolGrid
  binary_fill_holes : BoolGrid → BoolGrid
  label : BoolGrid → List (List ℕ)

/-- Lines 104-105: `bw = roi_f > level` followed by
`bw = np.logical_not(bw)`. -/
def binarize (roi_f : Grid) (level : ℚ) : BoolGrid :=
  let bw : BoolGrid := roi_f.map (fun row => row.map (fun p => decide (level < p)))
  bw.map (fun row => row.map (fun b => !b))

/-- Lines 102-110 of `analyze_image`: Otsu threshold, inverted
binarization, small-object removal at 30 pixels, hole filling, labeling. -/
def segment (lib : SegmentationLib) (roi_f : Grid) : List (List ℕ) :=
  let level := lib.threshold_otsu roi_f
  let bw := binarize roi_f level
  let bw := lib.remove_small_objects bw 30
  let bw := lib.binary_fill_holes bw
  lib.label bw

/-- C7: segmentation applies, in order, a single global Otsu threshold,
small-object removal at the fixed minimum area 30, hole filling, then
labeling; and the binarized foreground is exactly the set of pixels at or
below the threshold (the strict `>` classification, inverted). -/
theorem claim7_segmentation (lib : SegmentationLib) (roi_f : Grid) :
    segment lib roi_f =
      lib.label (lib.binary_fill_holes (lib.remove_small_objects
        (binarize roi_f (lib.threshold_otsu roi_f)) 30))
    ∧ ∀ level : ℚ, binarize roi_f level
        = roi_f.map (fun row => row.map (fun p => decide (p ≤ level))) := by
  constructor
  · rfl
  · intro level
    show (roi_f.map fun row => row.map fun p => decide (level < p)).map
        (fun row => row.map fun b => !b)
      = roi_f.map fun row => row.map fun p => decide (p ≤ level)
    rw [List.map_map]
    refine List.map_congr_left ?_
    intro row _
    show (row.map fun p => decide (level < p)).map (fun b => !b)
      = row.map fun p => decide (p ≤ level)
    rw [List.map_map]
    refine List.map_congr_left ?_
    intro p _
    simp only [Function.comp_apply]
    rw [← decide_not]
    exact decide_eq_decide.mpr not_lt

/-- The size bounds doubled along with the calibration length; the shape
bounds are unit-free and stay fixed. -/
def doubleSizeBounds (t : Thresholds) : Thresholds :=
  { t with min_nm := 2 * t.min_nm, max_nm := 2 * t.max_nm }

/-- The result of an analysis whose calibrated unit doubled: values and
mean double, the squared std quadruples, count and pixel-space circles
are unchanged. -/
def scaleResultTwo (r : ImageResult) : ImageResult :=
  { count := r.count,
    mean_nm := r.mean_nm.map (fun m => 2 * m),
    std_sq_nm := r.std_sq_nm.map (fun v => 4 * v),
    values_nm := r.values_nm.map (fun x => 2 * x),
    circles := r.circles }

lemma accept_two_mul (t : Thresholds) (npp : ℚ) (p : RegionProps) :
    acceptRegion (doubleSizeBounds t) (2 * npp) p = acceptRegion t npp p := by
  have h0 : p.equivalent_diameter * (2 * npp) = 2 * (p.equivalent_diameter * npp) := by
    ring
  simp only [acceptRegion, doubleSizeBounds, h0]
  have h1 : (2 * t.min_nm ≤ 2 * (p.equivalent_diameter * npp)) ↔
      (t.min_nm ≤ p.equivalent_diameter * npp) :=
    mul_le_mul_left (by norm_num)
  have h2 : (2 * (p.equivalent_diameter * npp) ≤ 2 * t.max_nm) ↔
      (p.equivalent_diameter * npp ≤ t.max_nm) :=
    mul_le_mul_left (by norm_num)
  simp only [h1, h2]

lemma meanOf_two_mul (l : List ℚ) :
    meanOf (l.map (fun x => 2 * x)) = 2 * meanOf l := by
  unfold meanOf
  rw [List.length_map]
  rw [show (l.map fun x => 2 * x).sum = 2 * l.sum from by
    simpa using List.sum_map_mul_left l id 2]
  rw [mul_div_assoc]

lemma std_sqOf_two_mul (l : List ℚ) :
    std_sqOf (l.map (fun x => 2 * x)) = 4 * std_sqOf l := by
  unfold std_sqOf
  rw [List.length_map, meanOf_two_mul, List.map_map]
  have hfun : ((fun x => (x - 2 * meanOf l) ^ 2) ∘ fun x => 2 * x)
      = fun x => 4 * ((x - meanOf l) ^ 2) := by
    funext x
    simp only [Function.comp_apply]
    ring
  rw [hfun]
  rw [show (l.map fun x => 4 * ((x - meanOf l) ^ 2)).sum
      = 4 * (l.map fun x => (x - meanOf l) ^ 2).sum from
    List.sum_map_mul_left l (fun x => (x - meanOf l) ^ 2) 4]
  rw [mul_div_assoc]

lemma mkResult_two_mul (npp : ℚ) (kept : List RegionProps) :
    mkResult (2 * npp) kept = scaleResultTwo (mkResult npp kept) := by
  have hvals : kept.map (fun p => p.equivalent_diameter * (2 * npp))
      = (kept.map (fun p => p.equivalent_diameter * npp)).map (fun x => 2 * x) := by
    rw [List.map_map]
    refine List.map_congr_left ?_
    intro p _
    simp only [Function.comp_apply]
    ring
  simp only [mkResult, scaleResultTwo, hvals, meanOf_two_mul, std_sqOf_two_mul,
    List.length_map]
  rfl

lemma calibrate_two_mul (c : String) (img : ImageData) (known_nm : ℚ) :
    calibrate c img (2 * known_nm)
      = (calibrate c img known_nm).map (fun npp => 2 * npp) := by
  rw [calibrate, calibrate]
  cases hsb : sbPropsFor c img with
  | none => rfl
  | some l =>
    dsimp only
    cases hhead : (List.insertionSort areaGE l).head? with
    | none => rfl
    | some top =>
      dsimp only
      by_cases hw : (top.max_col : ℤ) - (top.min_col : ℤ) ≤ 0
      · rw [if_pos hw, if_pos hw]
        rfl
      · rw [if_neg hw, if_neg hw]
        simp only [Except.map]
        rw [mul_div_assoc]

/-- C1 (amended): doubling `known_nm` together with the two size bounds
doubles every value and the mean, quadruples the squared std (doubles
`std_nm`), and leaves count and circles unchanged; error behaviour is
also unchanged. -/
theorem claim1_amended_unit_scaling (settings : AnalyzerSettings)
    (img : ImageData) (known_nm : ℚ) (t : Thresholds) (c : Option String) :
    analyze_image settings img (2 * known_nm) (doubleSizeBounds t) c =
      (analyze_image settings img known_nm t c).map scaleResultTwo := by
  rw [analyze_image_eq, analyze_image_eq, calibrate_two_mul]
  cases hcal : calibrate (resolveColor c settings) img known_nm with
  | error e => rfl
  | ok npp =>
    simp only [Except.map]
    by_cases hcrop : (img.h_img : ℤ) - (settings.crop_bottom_px : ℤ) ≤ 1
    · rw [if_pos hcrop, if_pos hcrop]
    · rw [if_neg hcrop, if_neg hcrop]
      have hacc : acceptRegion (doubleSizeBounds t) (2 * npp) = acceptRegion t npp :=
        funext (accept_two_mul t npp)
      rw [hacc]
      by_cases hkept : (img.particleProps.filter (acceptRegion t npp)).isEmpty = true
      · rw [if_pos hkept, if_pos hkept]
        simp [scaleResultTwo, emptyResult]
      · rw [if_neg hkept, if_neg hkept]
        rw [mkResult_two_mul]

/-- Does the analysis result carry the invalid-colour configuration
error? -/
def isInvalidConfig : Except AnalyzeError ImageResult → Bool
  | .error (.invalidConfig _) => true
  | _ => false

/-- C8 (amended): the invalid-colour configuration error is raised iff
the resolved, lowercased colour selector is neither white nor black. -/
theorem claim8_amended_color_check (settings : AnalyzerSettings)
    (img : ImageData) (known_nm : ℚ) (t : Thresholds) (c : Option String) :
    isInvalidConfig (analyze_image settings img known_nm t c) = true ↔
      (resolveColor c settings ≠ "white" ∧ resolveColor c settings ≠ "black") := by
  rw [analyze_image_eq]
  by_cases hw : resolveColor c settings = "white"
  · cases hcal : calibrate (resolveColor c settings) img known_nm with
    | error e =>
      rw [calibrate, sbPropsFor, if_pos hw] at hcal
      dsimp only at hcal
      constructor
      · intro habs
        cases hhead : (List.insertionSort areaGE img.sbPropsWhite).head? with
        | none =>
          rw [hhead] at hcal
          rw [← Except.error.inj hcal] at habs
          simp [isInvalidConfig] at habs
        | some top =>
          rw [hhead] at hcal
          dsimp only at hcal
          by_cases hwidth : (top.max_col : ℤ) - (top.min_col : ℤ) ≤ 0
          · rw [if_pos hwidth] at hcal
            rw [← Except.error.inj hcal] at habs
            simp [isInvalidConfig] at habs
          · rw [if_neg hwidth] at hcal
            cases hcal
      · intro habs
        exact absurd hw habs.1
    | ok npp =>
      constructor
      · intro habs
        dsimp only at habs
        by_cases hcrop : (img.h_img : ℤ) - (settings.crop_bottom_px : ℤ) ≤ 1
        · rw [if_pos hcrop] at habs
          simp [isInvalidConfig] at habs
        · rw [if_neg hcrop] at habs
          by_cases hkept : (img.particleProps.filter (acceptRegion t npp)).isEmpty = true
          · rw [if_pos hkept] at habs
            simp [isInvalidConfig] at habs
          · rw [if_neg hkept] at habs
            simp [isInvalidConfig] at habs
      · intro habs
        exact absurd hw habs.1
  · by_cases hb : resolveColor c settings = "black"
    · cases hcal : calibrate (resolveColor c settings) img known_nm with
      | error e =>
        rw [calibrate, sbPropsFor, if_neg hw, if_pos hb] at hcal
        dsimp only at hcal
        constructor
        · intro habs
          cases hhead : (List.insertionSort areaGE img.sbPropsBlack).head? with
          | none =>
            rw [hhead] at hcal
            rw [← Except.error.inj hcal] at habs
            simp [isInvalidConfig] at habs
          | some top =>
            rw [hhead] at hcal
            dsimp only at hcal
            by_cases hwidth : (top.max_col : ℤ) - (top.min_col : ℤ) ≤ 0
            · rw [if_pos hwidth] at hcal
              rw [← Except.error.inj hcal] at habs
              simp [isInvalidConfig] at habs
            · rw [if_neg hwidth] at hcal
              cases hcal
        · intro habs
          exact absurd hb habs.2
      | ok npp =>
        constructor
        · intro habs
          dsimp only at habs
          by_cases hcrop : (img.h_img : ℤ) - (settings.crop_bottom_px : ℤ) ≤ 1
          · rw [if_pos hcrop] at habs
            simp [isInvalidConfig] at habs
          · rw [if_neg hcrop] at habs
            by_cases hkept : (img.particleProps.filter (acceptRegion t npp)).isEmpty = true
            · rw [if_pos hkept] at habs
              simp [isInvalidConfig] at habs
            · rw [if_neg hkept] at habs
              simp [isInvalidConfig] at habs
        · intro habs
          exact absurd hb habs.2
    · have hcal : calibrate (resolveColor c settings) img known_nm =
          .error (.invalidConfig "Scale bar color must be white or black.") := by
        rw [calibrate, sbPropsFor, if_neg hw, if_neg hb]
      rw [hcal]
      simp [isInvalidConfig, hw, hb]

/-- A concrete scale-bar component: area 300, bounding box spanning
columns 10 to 60 (bar width 50 px). -/
def cSB : SBRegion :=
  { area := 300, min_row := 990, min_col := 10, max_row := 995, max_col := 60 }

/-- Default analyzer settings (white bar, 150 px bottom crop). -/
def cSettings : AnalyzerSettings := {}

/-- A concrete image: height 1000, one white scale-bar component of bar
width 50 px, and one segmented region of equivalent diameter 3 px,
eccentricity 0, solidity 1. -/
def cImg : ImageData :=
  { h_img := 1000
    sbPropsWhite := [cSB]
    sbPropsBlack := []
    particleProps := [{ equivalent_diameter := 3, eccentricity := 0,
                        solidity := 1, centroid := (5, 7) }] }

/-- Default thresholds (3.5 to 9 nm, ecc at most 0.7, solidity at least
0.5). -/
def cThresholds : Thresholds := {}

/-- The result of analyzing `cImg` with `known_nm = 100`: calibration
gives 2 nm/px, the single region has diameter 6 nm and is accepted. -/
def cResult : ImageResult :=
  { count := 1, mean_nm := some 6, std_sq_nm := some 0,
    values_nm := [6], circles := [(7, 5, 3 / 2)] }

/-- Thresholds tighter than `cThresholds`: `min_nm` raised to 7. -/
def cTight : Thresholds :=
  { min_nm := 7, max_nm := 9, ecc_max := 7 / 10, sol_min := 1 / 2 }

/-- C1 is false as stated: doubling `known_nm` alone changes `count`.
With `known_nm = 100` the single region measures 6 nm and is accepted
(count 1); with `known_nm = 200` it measures 12 nm, above `max_nm = 9`,
and is rejected (count 0). -/
theorem claim1_counterexample :
    Except.map ImageResult.count
      (analyze_image cSettings cImg 100 cThresholds none) = .ok 1 ∧
    Except.map ImageResult.count
      (analyze_image cSettings cImg (2 * 100) cThresholds none) = .ok 0 := by
  constructor
  · with_unfolding_all rfl
  · with_unfolding_all rfl

/-- C8 is false as stated: the colour selector is lowercased first, so
the value WHITE, which is neither the string white nor the string black,
does not raise the configuration error. -/
theorem claim8_counterexample :
    ¬ ("WHITE" = "white" ∨ "WHITE" = "black") ∧
    isInvalidConfig
      (analyze_image cSettings cImg 100 cThresholds (some "WHITE")) = false := by
  constructor
  · intro h
    rcases h with h | h <;> exact absurd h (by decide)
  · with_unfolding_all rfl

theorem claim3_witness :
    sbPropsFor "white" cImg = some [cSB] ∧
    firstMax [cSB] = some cSB ∧
    0 < (cSB.max_col : ℤ) - (cSB.min_col : ℤ) ∧
    calibrate "white" cImg 100 = .ok 2 := by
  have h1 : sbPropsFor "white" cImg = some [cSB] := by with_unfolding_all rfl
  have h2 : firstMax [cSB] = some cSB := by with_unfolding_all rfl
  have h3 : (0 : ℤ) < (cSB.max_col : ℤ) - (cSB.min_col : ℤ) := by decide
  have h4 := ((claim3_calibration "white" cImg 100 [cSB] h1).2 cSB h2).2 h3
  exact ⟨h1, h2, h3, h4.trans (by with_unfolding_all rfl)⟩

theorem claim4_witness :
    analyze_image cSettings cImg 100 cThresholds none = .ok cResult ∧
    (cResult.values_nm.length = cResult.count ∧
     cResult.circles.length = cResult.count ∧
     ∃ npp kept, List.Sublist kept cImg.particleProps ∧
       (∀ p ∈ kept, acceptRegion cThresholds npp p = true) ∧
       cResult.values_nm = kept.map (fun p => p.equivalent_diameter * npp) ∧
       cResult.circles = kept.map circleOf) := by
  have h : analyze_image cSettings cImg 100 cThresholds none = .ok cResult := by
    with_unfolding_all rfl
  exact ⟨h, claim4_cardinality cSettings cImg 100 cThresholds none cResult h⟩

theorem claim5_witness :
    (analyze_image cSettings cImg 100 cThresholds none = .ok cResult ∧
      ((cResult.mean_nm = none ↔ cResult.count = 0) ∧
       (cResult.std_sq_nm = none ↔ cResult.count = 0))) ∧
    (calibrate (resolveColor none cSettings) cImg 200 = .ok 4 ∧
      ¬ ((cImg.h_img : ℤ) - (cSettings.crop_bottom_px : ℤ) ≤ 1) ∧
      cImg.particleProps.filter (acceptRegion cThresholds 4) = [] ∧
      analyze_image cSettings cImg 200 cThresholds none = .ok emptyResult) := by
  have h : analyze_image cSettings cImg 100 cThresholds none = .ok cResult := by
    with_unfolding_all rfl
  have hcal : calibrate (resolveColor none cSettings) cImg 200 = .ok 4 := by
    with_unfolding_all rfl
  have hcrop : ¬ ((cImg.h_img : ℤ) - (cSettings.crop_bottom_px : ℤ) ≤ 1) := by decide
  have hfilter : cImg.particleProps.filter (acceptRegion cThresholds 4) = [] := by
    with_unfolding_all rfl
  refine ⟨⟨h, (claim5_empty_contract cSettings cImg 100 cThresholds none).1 cResult h⟩,
    hcal, hcrop, hfilter,
    (claim5_empty_contract cSettings cImg 200 cThresholds none).2 4 hcal hcrop hfilter⟩

theorem claim6_witness :
    (cThresholds.min_nm ≤ cTight.min_nm ∧ cTight.max_nm ≤ cThresholds.max_nm ∧
     cTight.ecc_max ≤ cThresholds.ecc_max ∧ cThresholds.sol_min ≤ cTight.sol_min) ∧
    analyze_image cSettings cImg 100 cThresholds none = .ok cResult ∧
    analyze_image cSettings cImg 100 cTight none = .ok emptyResult ∧
    emptyResult.count ≤ cResult.count := by
  have hmin : cThresholds.min_nm ≤ cTight.min_nm := by
    with_unfolding_all decide
  have hmax : cTight.max_nm ≤ cThresholds.max_nm := le_refl _
  have hecc : cTight.ecc_max ≤ cThresholds.ecc_max := le_refl _
  have hsol : cThresholds.sol_min ≤ cTight.sol_min := le_refl _
  have h : analyze_image cSettings cImg 100 cThresholds none = .ok cResult := by
    with_unfolding_all rfl
  have h' : analyze_image cSettings cImg 100 cTight none = .ok emptyResult := by
    with_unfolding_all rfl
  exact ⟨⟨hmin, hmax, hecc, hsol⟩, h, h',
    claim6_threshold_monotone cSettings cImg 100 cThresholds cTight none
      cResult emptyResult hmin hmax hecc hsol h h'⟩

theorem claim9_witness :
    analyze_image cSettings cImg 100 cThresholds none = .ok cResult ∧
    0 < cResult.count ∧
    (cResult.mean_nm = some (cResult.values_nm.sum / (cResult.count : ℚ)) ∧
     cResult.std_sq_nm = some ((cResult.values_nm.map
       (fun x => (x - cResult.values_nm.sum / (cResult.count : ℚ)) ^ 2)).sum /
       (cResult.count : ℚ))) := by
  have h : analyze_image cSettings cImg 100 cThresholds none = .ok cResult := by
    with_unfolding_all rfl
  have hpos : 0 < cResult.count := by decide
  exact ⟨h, hpos,
    claim9_population_stats cSettings cImg 100 cThresholds none cResult h hpos⟩

end TEMModel
